import Mathlib

/-!
Verification of the Supertrend NIFTY options trading system.

The frontend (React dashboard) is embedded directly from its source files;
the backend strategy engine (supertrend calculator, position manager,
risk gate, order executor) is modelled from the specification, since only
its documentation and callers appear in the repository snapshot.
Prices and P&L amounts are modelled as exact rationals.
-/

namespace Supertrend

/-! ## Frontend: Dashboard start handler (src/frontend/src/pages/Dashboard.js) -/

/-- Credentials entered in the Dashboard start form: `creds` state of the
`Dashboard` component. -/
structure Credentials where
  client_id : String
  access_token : String
deriving Repr, DecidableEq

/-- Payload posted to `/trading/start` by `startTrading({ ...creds, lot_size: 50 })`. -/
structure StartPayload where
  client_id : String
  access_token : String
  lot_size : Nat
deriving Repr, DecidableEq

/-- Outcome of the Dashboard `handleStart` handler: either a local error message
is set (no backend request issued), or a start request is issued. -/
inductive StartOutcome where
  | localError (msg : String)
  | request (payload : StartPayload)
deriving Repr, DecidableEq

/-- Embeds `handleStart` from `src/frontend/src/pages/Dashboard.js` lines 65-78.
In JavaScript `!s` on a string is true exactly when the string is empty, so the
guard `!creds.client_id || !creds.access_token` rejects empty credentials with a
local error and returns before `startTrading` is called; otherwise the request
payload spreads the credentials and hardcodes `lot_size: 50`. -/
def handleStart (creds : Credentials) : StartOutcome :=
  if creds.client_id = "" ∨ creds.access_token = "" then
    .localError "Client ID and Access Token are required"
  else
    .request { client_id := creds.client_id, access_token := creds.access_token,
               lot_size := 50 }

/-- Risk settings as edited and saved on the Profile page
(`src/unnamed/part_003`, `risk` state): max daily loss, max trades per day,
lot size and scaling toggle.  The same record is the backend `RiskConfig`. -/
structure RiskConfig where
  max_daily_loss : ℚ
  max_trades_per_day : Nat
  lot_size : Nat
  scaling_enabled : Bool
deriving Repr, DecidableEq

/-! ## Frontend: P&L history page (`src/unnamed/part_002`, `PnLHistory`) -/

/-- One row of the daily P&L history fetched from `/pnl/history`
(the `daily_pnl` table: date, total_pnl, trade counts). -/
structure DailyRow where
  date : String
  total_pnl : ℚ
  total_trades : Nat
  winning_trades : Nat
  losing_trades : Nat
deriving Repr, DecidableEq

/-- A point of the cumulative equity chart built by `PnLHistory`. -/
structure ChartPoint where
  date : String
  pnl : ℚ
  cumulative : ℚ
deriving Repr, DecidableEq

/-- Embeds the `chartData` computation of `PnLHistory` (`src/unnamed/part_002`
lines 30-35): the history list is reversed, and entry `i` gets
`cumulative = arr.slice(0, i + 1).reduce((s, x) => s + x.total_pnl, 0)` over the
reversed array `arr`. -/
def chartData (history : List DailyRow) : List ChartPoint :=
  let arr := history.reverse
  List.mapIdx (fun i d =>
    { date := d.date, pnl := d.total_pnl,
      cumulative := (arr.take (i + 1)).foldl (fun s x => s + x.total_pnl) 0 }) arr

/-- Embeds `totalPnl` of `PnLHistory` (`src/unnamed/part_002` line 37):
`history.reduce((s, d) => s + d.total_pnl, 0)`. -/
def totalPnl (history : List DailyRow) : ℚ :=
  history.foldl (fun s d => s + d.total_pnl) 0

/-! ## Backend core model

The backend strategy engine (`backend/strategy/supertrend.py`,
`backend/strategy/engine.py`, `backend/services/order_service.py`,
`backend/services/orchestrator.py`) is not present in the repository snapshot;
only its README and the frontend that calls it are.  The definitions below are
modelled from the specification (spec.md sections 3 and 4 and the README's
strategy details). -/

/-- Option leg: call or put side, tracked independently. -/
inductive Leg where
  | CE
  | PE
deriving Repr, DecidableEq

/-- Supertrend direction. -/
inductive STDirection where
  | bullish
  | bearish
  | unknown
deriving Repr, DecidableEq

/-- A closed OHLC candle (only the fields the indicator reads). -/
structure Candle where
  openPrice : ℚ
  high : ℚ
  low : ℚ
  close : ℚ
deriving Repr, DecidableEq

/-- Modelled from the spec: `SupertrendState` of the missing
`backend/strategy/supertrend.py` (spec.md section 3): period, multiplier, prior
final bands, current value, direction, last candle close, plus the rolling
true-range window and the count of candles observed so far. -/
structure SupertrendState where
  period : Nat
  multiplier : ℚ
  trs : List ℚ
  count : Nat
  atr : ℚ
  prior_upper_band : ℚ
  prior_lower_band : ℚ
  current_value : ℚ
  direction : STDirection
  last_candle_close : ℚ
deriving Repr, DecidableEq

/-- Modelled from the spec: initial Supertrend(10,3) state before any candle. -/
def SupertrendState.init : SupertrendState :=
  { period := 10, multiplier := 3, trs := [], count := 0, atr := 0,
    prior_upper_band := 0, prior_lower_band := 0, current_value := 0,
    direction := .unknown, last_candle_close := 0 }

/-- Modelled from the spec: true range of a new candle given the prior close
(`max(high - low, |high - prev_close|, |low - prev_close|)`; plain range for
the very first candle). -/
def trueRange (st : SupertrendState) (c : Candle) : ℚ :=
  if st.count = 0 then c.high - c.low
  else max (c.high - c.low)
    (max |c.high - st.last_candle_close| |c.low - st.last_candle_close|)

/-- Modelled from the spec: `update(candle)` of the missing
`backend/strategy/supertrend.py` (spec.md section 4.2) — a pure function of
prior state and new candle.  ATR is seeded with a simple average of the first
`period` true ranges and then Wilder-smoothed; basic bands are
`(high+low)/2 ± multiplier*ATR`; final bands carry forward with the standard
tightening rule; direction stays `unknown` until `period` candles have been
observed, then flips bearish when close crosses below the lower band and
bullish when close crosses above the upper band, sticky otherwise; the
supertrend value is the lower band in a bullish trend and the upper band
otherwise. -/
def SupertrendState.update (st : SupertrendState) (c : Candle) : SupertrendState :=
  let tr := trueRange st c
  let n := st.count + 1
  let atr' :=
    if n < st.period then 0
    else if n = st.period then ((tr :: st.trs).take st.period).sum / st.period
    else (st.atr * (st.period - 1) + tr) / st.period
  let mid := (c.high + c.low) / 2
  let basicUpper := mid + st.multiplier * atr'
  let basicLower := mid - st.multiplier * atr'
  let finalUpper :=
    if n ≤ st.period then basicUpper
    else if basicUpper < st.prior_upper_band ∨ st.last_candle_close > st.prior_upper_band
      then basicUpper else st.prior_upper_band
  let finalLower :=
    if n ≤ st.period then basicLower
    else if basicLower > st.prior_lower_band ∨ st.last_candle_close < st.prior_lower_band
      then basicLower else st.prior_lower_band
  let dir :=
    if n < st.period then STDirection.unknown
    else match st.direction with
      | .unknown => if c.close > finalUpper then .bullish else .bearish
      | d =>
        if c.close < finalLower then .bearish
        else if c.close > finalUpper then .bullish
        else d
  let value :=
    match dir with
    | .bullish => finalLower
    | _ => finalUpper
  { period := st.period, multiplier := st.multiplier,
    trs := (tr :: st.trs).take st.period, count := n, atr := atr',
    prior_upper_band := finalUpper, prior_lower_band := finalLower,
    current_value := value, direction := dir, last_candle_close := c.close }

/-- Modelled from the spec: one batch pass over the whole candle history,
producing the direction/value sequence (spec.md sections 4.2 and 8). -/
def batchRun (st : SupertrendState) : List Candle → List (STDirection × ℚ)
  | [] => []
  | c :: cs =>
    let st2 := st.update c
    (st2.direction, st2.current_value) :: batchRun st2 cs

/-- Modelled from the spec: one incremental step — feed a single new candle to
the calculator and append the resulting direction/value to the output so far. -/
def incStep (acc : SupertrendState × List (STDirection × ℚ)) (c : Candle) :
    SupertrendState × List (STDirection × ℚ) :=
  let st2 := acc.1.update c
  (st2, acc.2 ++ [(st2.direction, st2.current_value)])

/-- Modelled from the spec: incremental candle-by-candle run from the initial
state, collecting the direction/value sequence. -/
def incRun (cs : List Candle) : List (STDirection × ℚ) :=
  (cs.foldl incStep (SupertrendState.init, [])).2

/-! ### Position manager (spec.md section 4.6, README re-entry scaling table) -/

/-- Position lifecycle status. -/
inductive PosStatus where
  | OPEN
  | CLOSED
deriving Repr, DecidableEq

/-- Reason a position was exited. -/
inductive ExitReason where
  | SL
  | FORCE
  | MANUAL
deriving Repr, DecidableEq

/-- Modelled from the spec: a `Position` record of the missing position manager
(spec.md section 3): created on an admitted entry, closed on an exit event. -/
structure Position where
  id : Nat
  leg : Leg
  qty : Nat
  avg_price : ℚ
  status : PosStatus
  exit_price : Option ℚ
  exit_reason : Option ExitReason
  reentry_index : Nat
deriving Repr, DecidableEq

/-- Modelled from the spec: the per-leg per-day `ReentryCounter`
(spec.md section 3): an entry count and a `stopped` flag. -/
structure ReentryCounter where
  count : Nat
  stopped : Bool
deriving Repr, DecidableEq

/-- Modelled from the spec: per-leg state owned by the missing
`PositionManager`: the positions created for the leg today, the leg's re-entry
counter, and the realized P&L contributed to `DailyPnL`. -/
structure LegState where
  positions : List Position
  counter : ReentryCounter
  realized_pnl : ℚ
deriving Repr, DecidableEq

/-- Modelled from the spec: leg state at the start of a trading day. -/
def LegState.init : LegState :=
  { positions := [], counter := { count := 0, stopped := false }, realized_pnl := 0 }

/-- Number of OPEN positions held for a leg. -/
def countOpen (ps : List Position) : Nat :=
  (ps.filter (fun p => p.status = .OPEN)).length

/-- Modelled from the spec: handling of a confirmed ENTRY for a leg by the
missing `PositionManager` (spec.md sections 4.6 and 7, README re-entry table):
a stopped leg takes no entry; an ENTRY while a position is already OPEN is a
logic error, rejected defensively (logged, not executed, state unchanged); the
4th would-be entry (counter already at 3) marks the leg stopped instead of
entering; otherwise a Position is created with
`qty = lot_size * (reentry_index + 1)` when scaling is enabled (flat
`lot_size` otherwise) and the counter is incremented. -/
def applyEntry (cfg : RiskConfig) (s : LegState) (leg : Leg) (price : ℚ) : LegState :=
  if s.counter.stopped then s
  else if countOpen s.positions ≠ 0 then s
  else if 3 ≤ s.counter.count then
    { s with counter := { count := s.counter.count, stopped := true } }
  else
    let idx := s.counter.count
    let qty := if cfg.scaling_enabled then cfg.lot_size * (idx + 1) else cfg.lot_size
    { positions := s.positions ++
        [{ id := s.positions.length, leg := leg, qty := qty, avg_price := price,
           status := .OPEN, exit_price := none, exit_reason := none,
           reentry_index := idx }],
      counter := { count := s.counter.count + 1, stopped := s.counter.stopped },
      realized_pnl := s.realized_pnl }

/-- Modelled from the spec: closing an individual position on a confirmed exit
fill — an OPEN position becomes CLOSED with the exit price and reason; a
position that is not OPEN is untouched. -/
def closePos (reason : ExitReason) (price : ℚ) (p : Position) : Position :=
  if p.status = .OPEN then
    { p with status := .CLOSED, exit_price := some price, exit_reason := some reason }
  else p

/-- Modelled from the spec: handling of a confirmed EXIT fill (spec.md section
4.6): every OPEN position of the leg is closed with the given reason and price,
and the realized P&L is updated by `(entry_price - exit_price) * qty` for the
short option positions that were open. -/
def applyExit (s : LegState) (reason : ExitReason) (price : ℚ) : LegState :=
  { positions := s.positions.map (closePos reason price),
    counter := s.counter,
    realized_pnl := s.realized_pnl +
      ((s.positions.filter (fun p => p.status = .OPEN)).map
        (fun p => (p.avg_price - price) * (p.qty : ℚ))).sum }

/-- Modelled from the spec: the forced square-off trigger of the missing
`DayScheduler`/`PositionManager` (spec.md sections 4.6 and 4.7): emits a
synthetic FORCE exit for the leg's open positions. -/
def squareOff (s : LegState) (price : ℚ) : LegState :=
  applyExit s .FORCE price

/-- Modelled from the spec: the signal and timer events that reach one leg of
the position manager through its serialization queue: a confirmed ENTRY signal
and confirmed EXIT fills (stop-loss, forced square-off, manual). -/
inductive LegEvent where
  | entry (price : ℚ)
  | exitFill (reason : ExitReason) (price : ℚ)
deriving Repr, DecidableEq

/-- Modelled from the spec: one step of the per-leg state machine. -/
def legStep (cfg : RiskConfig) (leg : Leg) (s : LegState) : LegEvent → LegState
  | .entry price => applyEntry cfg s leg price
  | .exitFill reason price => applyExit s reason price

/-- Modelled from the spec: the two-leg engine state (legs are independent,
spec.md section 5). -/
structure EngineState where
  ce : LegState
  pe : LegState
deriving Repr, DecidableEq

/-- Modelled from the spec: engine state at the start of a trading day. -/
def EngineState.init : EngineState :=
  { ce := LegState.init, pe := LegState.init }

/-- Modelled from the spec: dispatch of one leg-targeted event. -/
def EngineState.step (cfg : RiskConfig) (s : EngineState) : Leg × LegEvent → EngineState
  | (.CE, e) => { s with ce := legStep cfg .CE s.ce e }
  | (.PE, e) => { s with pe := legStep cfg .PE s.pe e }

/-- Modelled from the spec: run the engine over a whole day's sequence of
signal and timer events, from the initial state. -/
def run (cfg : RiskConfig) (evs : List (Leg × LegEvent)) : EngineState :=
  evs.foldl (EngineState.step cfg) EngineState.init

/-! ### Risk gate (spec.md section 4.4) -/

/-- Kind of a trading intent. -/
inductive IntentKind where
  | ENTRY
  | EXIT
deriving Repr, DecidableEq

/-- An intent emitted by the signal engine for one leg. -/
structure Intent where
  kind : IntentKind
  leg : Leg
deriving Repr, DecidableEq

/-- Modelled from the spec: the daily counters and clock state the missing
`RiskGate` reads (spec.md section 4.4): today's trade count, the running daily
P&L, whether the current time is past the entry cutoff, and each leg's
re-entry counter. -/
structure RiskState where
  total_trades_today : Nat
  running_daily_pnl : ℚ
  past_cutoff : Bool
  ce_counter : ReentryCounter
  pe_counter : ReentryCounter
deriving Repr, DecidableEq

/-- The re-entry counter of a given leg. -/
def RiskState.counterFor (st : RiskState) : Leg → ReentryCounter
  | .CE => st.ce_counter
  | .PE => st.pe_counter

/-- Modelled from the spec: admission control of the missing `RiskGate`
(spec.md section 4.4).  An ENTRY intent is rejected (dropped — `none` is
returned, nothing is queued or retried) when the daily trade budget is
exhausted, the daily loss limit is breached, the entry cutoff has passed, or
the leg's re-entry counter is stopped; otherwise it passes through unchanged.
EXIT intents always pass through. -/
def riskGate (cfg : RiskConfig) (st : RiskState) (i : Intent) : Option Intent :=
  match i.kind with
  | .EXIT => some i
  | .ENTRY =>
    if cfg.max_trades_per_day ≤ st.total_trades_today then none
    else if st.running_daily_pnl ≤ -cfg.max_daily_loss then none
    else if st.past_cutoff then none
    else if (st.counterFor i.leg).stopped then none
    else some i

/-! ### Order executor (spec.md section 4.5) -/

/-- Order side. -/
inductive Side where
  | BUY
  | SELL
deriving Repr, DecidableEq

/-- Modelled from the spec: the identity of a logical order used for
deduplication by the missing `backend/services/order_service.py`: same leg,
same day, same reentry index, same direction. -/
structure OrderKey where
  leg : Leg
  day : Nat
  reentry_index : Nat
  direction : Side
deriving Repr, DecidableEq

/-- Modelled from the spec: executor state — the persisted dedup store of
orders already placed or filled, and the sequence of orders actually sent to
the broker.  The store survives process restart (it is read back from the
persistence gateway), so a trace spanning a restart is the same fold. -/
structure ExecState where
  placed : List OrderKey
  broker_orders : List OrderKey
deriving Repr, DecidableEq

/-- Modelled from the spec: `execute(intent)` of the missing order executor
(spec.md section 4.5): before placing, it checks whether an equivalent order
(same leg, day, reentry index, direction) has already been placed or filled;
if so nothing is sent to the broker, otherwise the order is placed and
recorded in the dedup store. -/
def execute (st : ExecState) (k : OrderKey) : ExecState :=
  if k ∈ st.placed then st
  else { placed := st.placed ++ [k], broker_orders := st.broker_orders ++ [k] }

/-- Modelled from the spec: run the executor over a trace of logical order
attempts (retries and post-restart replays appear as repeated keys), starting
from a given recovered state. -/
def runExec (st : ExecState) (intents : List OrderKey) : ExecState :=
  intents.foldl execute st

/-! ### Concrete scenario inputs (spec.md section 8) -/

/-- Scenario input: three consecutive ENTRY-then-SL rounds on the CE leg
followed by a 4th entry signal. -/
def scenarioEvents : List (Leg × LegEvent) :=
  [(.CE, .entry 100), (.CE, .exitFill .SL 110),
   (.CE, .entry 95), (.CE, .exitFill .SL 105),
   (.CE, .entry 90), (.CE, .exitFill .SL 100),
   (.CE, .entry 85)]

/-- Scenario configuration: lot size 50 with scaling enabled. -/
def scenarioConfig : RiskConfig :=
  { max_daily_loss := 10000, max_trades_per_day := 20, lot_size := 50,
    scaling_enabled := true }

/-- A leg state holding exactly one OPEN CE position: qty 50 sold at 100,
nothing realized yet. -/
def oneOpenLeg : LegState :=
  { positions := [{ id := 0, leg := .CE, qty := 50, avg_price := 100,
                    status := .OPEN, exit_price := none, exit_reason := none,
                    reentry_index := 0 }],
    counter := { count := 1, stopped := false },
    realized_pnl := 0 }

/-- A leg state whose re-entry counter is at the cap (3 entries taken, nothing
open, not yet stopped). -/
def capLeg : LegState :=
  { positions := [], counter := { count := 3, stopped := false }, realized_pnl := 0 }

/-- A leg state that has been stopped for the day. -/
def stoppedLeg : LegState :=
  { positions := [], counter := { count := 3, stopped := true }, realized_pnl := 0 }

/-- A fresh risk-gate state: no trades yet, flat P&L, before cutoff, both legs
active. -/
def freshRiskState : RiskState :=
  { total_trades_today := 0, running_daily_pnl := 0, past_cutoff := false,
    ce_counter := { count := 0, stopped := false },
    pe_counter := { count := 0, stopped := false } }

/-! ## Helper lemmas -/

theorem foldl_preserves {σ : Type _} {α : Type _} (f : σ → α → σ) (P : σ → Prop)
    (hstep : ∀ s a, P s → P (f s a)) :
    ∀ (l : List α) (s : σ), P s → P (l.foldl f s)
  | [], _, hs => hs
  | a :: l, s, hs => foldl_preserves f P hstep l (f s a) (hstep s a hs)

theorem countOpen_append_single (l : List Position) (p : Position) :
    countOpen (l ++ [p]) = countOpen l + (if p.status = .OPEN then 1 else 0) := by
  simp only [countOpen, List.filter_append, List.length_append]
  congr 1
  by_cases h : p.status = .OPEN <;> simp [h]

theorem closePos_not_open (r : ExitReason) (pr : ℚ) (p : Position) :
    (closePos r pr p).status ≠ .OPEN := by
  unfold closePos
  split
  · simp
  · next h => simpa using h

theorem closePos_of_not_open (r : ExitReason) (pr : ℚ) (p : Position)
    (h : p.status ≠ .OPEN) : closePos r pr p = p := by
  simp [closePos, h]

theorem closePos_qty (r : ExitReason) (pr : ℚ) (p : Position) :
    (closePos r pr p).qty = p.qty := by
  unfold closePos
  split <;> rfl

theorem closePos_reentry_index (r : ExitReason) (pr : ℚ) (p : Position) :
    (closePos r pr p).reentry_index = p.reentry_index := by
  unfold closePos
  split <;> rfl

theorem countOpen_applyExit (s : LegState) (r : ExitReason) (pr : ℚ) :
    countOpen (applyExit s r pr).positions = 0 := by
  simp only [applyExit, countOpen, List.length_eq_zero]
  rw [List.filter_eq_nil_iff]
  intro p hp
  obtain ⟨q, _, rfl⟩ := List.mem_map.mp hp
  simpa using closePos_not_open r pr q

theorem countOpen_legStep (cfg : RiskConfig) (leg : Leg) (s : LegState)
    (e : LegEvent) (h : countOpen s.positions ≤ 1) :
    countOpen (legStep cfg leg s e).positions ≤ 1 := by
  cases e with
  | entry price =>
    by_cases hst : s.counter.stopped
    · simpa [legStep, applyEntry, hst] using h
    · by_cases ho : countOpen s.positions ≠ 0
      · simpa [legStep, applyEntry, hst, ho] using h
      · push_neg at ho
        by_cases hc : 3 ≤ s.counter.count
        · simp [legStep, applyEntry, hst, ho, hc]
        · simp [legStep, applyEntry, hst, ho, hc, countOpen_append_single]
  | exitFill r pr =>
    simp [legStep, countOpen_applyExit]

theorem run_countOpen_le_one (cfg : RiskConfig) (evs : List (Leg × LegEvent)) :
    countOpen (run cfg evs).ce.positions ≤ 1 ∧
    countOpen (run cfg evs).pe.positions ≤ 1 := by
  refine foldl_preserves (EngineState.step cfg)
    (fun s => countOpen s.ce.positions ≤ 1 ∧ countOpen s.pe.positions ≤ 1)
    ?_ evs EngineState.init (by simp [EngineState.init, LegState.init, countOpen])
  rintro s ⟨leg, e⟩ ⟨hce, hpe⟩
  cases leg with
  | CE => exact ⟨countOpen_legStep cfg .CE s.ce e hce, hpe⟩
  | PE => exact ⟨hce, countOpen_legStep cfg .PE s.pe e hpe⟩

theorem foldl_incStep_eq (cs : List Candle) :
    ∀ (st : SupertrendState) (out : List (STDirection × ℚ)),
      (cs.foldl incStep (st, out)).2 = out ++ batchRun st cs := by
  induction cs with
  | nil => intro st out; simp [batchRun]
  | cons c cs ih =>
    intro st out
    simp [incStep, batchRun, ih]

theorem count_le_three_legStep (cfg : RiskConfig) (leg : Leg) (s : LegState)
    (e : LegEvent) (h : s.counter.count ≤ 3) :
    (legStep cfg leg s e).counter.count ≤ 3 := by
  cases e with
  | entry price =>
    by_cases hst : s.counter.stopped
    · simpa [legStep, applyEntry, hst] using h
    · by_cases ho : countOpen s.positions ≠ 0
      · simpa [legStep, applyEntry, hst, ho] using h
      · by_cases hc : 3 ≤ s.counter.count
        · simpa [legStep, applyEntry, hst, ho, hc] using h
        · simp [legStep, applyEntry, hst, ho, hc]
          omega
  | exitFill r pr => simpa [legStep, applyExit] using h

theorem run_count_le_three (cfg : RiskConfig) (evs : List (Leg × LegEvent)) :
    (run cfg evs).ce.counter.count ≤ 3 ∧ (run cfg evs).pe.counter.count ≤ 3 := by
  refine foldl_preserves (EngineState.step cfg)
    (fun s => s.ce.counter.count ≤ 3 ∧ s.pe.counter.count ≤ 3)
    ?_ evs EngineState.init (by simp [EngineState.init, LegState.init])
  rintro s ⟨leg, e⟩ ⟨hce, hpe⟩
  cases leg with
  | CE => exact ⟨count_le_three_legStep cfg .CE s.ce e hce, hpe⟩
  | PE => exact ⟨hce, count_le_three_legStep cfg .PE s.pe e hpe⟩

theorem qty_formula_legStep (cfg : RiskConfig) (leg : Leg) (s : LegState)
    (e : LegEvent)
    (h : ∀ pos ∈ s.positions,
        pos.qty = if cfg.scaling_enabled then cfg.lot_size * (pos.reentry_index + 1)
                  else cfg.lot_size) :
    ∀ pos ∈ (legStep cfg leg s e).positions,
        pos.qty = if cfg.scaling_enabled then cfg.lot_size * (pos.reentry_index + 1)
                  else cfg.lot_size := by
  cases e with
  | entry price =>
    by_cases hst : s.counter.stopped
    · simpa [legStep, applyEntry, hst] using h
    · by_cases ho : countOpen s.positions ≠ 0
      · simpa [legStep, applyEntry, hst, ho] using h
      · by_cases hc : 3 ≤ s.counter.count
        · simpa [legStep, applyEntry, hst, ho, hc] using h
        · intro pos hpos
          simp only [legStep, applyEntry, hst, ho, hc, if_false, ite_false,
            Bool.false_eq_true, List.mem_append, List.mem_singleton] at hpos
          rcases hpos with hmem | rfl
          · exact h pos hmem
          · rfl
  | exitFill r pr =>
    intro pos hpos
    simp only [legStep, applyExit, List.mem_map] at hpos
    obtain ⟨q, hq, rfl⟩ := hpos
    rw [closePos_qty, closePos_reentry_index]
    exact h q hq

theorem run_qty_formula (cfg : RiskConfig) (evs : List (Leg × LegEvent)) :
    (∀ pos ∈ (run cfg evs).ce.positions,
        pos.qty = if cfg.scaling_enabled then cfg.lot_size * (pos.reentry_index + 1)
                  else cfg.lot_size) ∧
    (∀ pos ∈ (run cfg evs).pe.positions,
        pos.qty = if cfg.scaling_enabled then cfg.lot_size * (pos.reentry_index + 1)
                  else cfg.lot_size) := by
  refine foldl_preserves (EngineState.step cfg)
    (fun s => (∀ pos ∈ s.ce.positions,
        pos.qty = if cfg.scaling_enabled then cfg.lot_size * (pos.reentry_index + 1)
                  else cfg.lot_size) ∧
      (∀ pos ∈ s.pe.positions,
        pos.qty = if cfg.scaling_enabled then cfg.lot_size * (pos.reentry_index + 1)
                  else cfg.lot_size))
    ?_ evs EngineState.init (by simp [EngineState.init, LegState.init])
  rintro s ⟨leg, e⟩ ⟨hce, hpe⟩
  cases leg with
  | CE => exact ⟨qty_formula_legStep cfg .CE s.ce e hce, hpe⟩
  | PE => exact ⟨hce, qty_formula_legStep cfg .PE s.pe e hpe⟩

/-! ## Claim theorems -/

/-- C1: for every reachable sequence of signal and timer events, each leg (CE
or PE) has at most one Position with status OPEN at any instant; an ENTRY
intent arriving while the leg is already OPEN is rejected (logged, not
executed) and leaves the state unchanged. -/
theorem single_open_position_invariant (cfg : RiskConfig)
    (evs : List (Leg × LegEvent)) (s : LegState) (leg : Leg) (price : ℚ)
    (hopen : countOpen s.positions ≠ 0) :
    countOpen (run cfg evs).ce.positions ≤ 1 ∧
    countOpen (run cfg evs).pe.positions ≤ 1 ∧
    applyEntry cfg s leg price = s := by
  obtain ⟨hce, hpe⟩ := run_countOpen_le_one cfg evs
  refine ⟨hce, hpe, ?_⟩
  by_cases hst : s.counter.stopped
  · simp [applyEntry, hst]
  · simp [applyEntry, hst, hopen]

/-- Witness for C1: a state with one OPEN CE position rejects a further ENTRY
unchanged, and the invariant holds after the scenario event sequence. -/
theorem single_open_position_invariant_witness :
    countOpen oneOpenLeg.positions ≠ 0 ∧
    (countOpen (run scenarioConfig scenarioEvents).ce.positions ≤ 1 ∧
     countOpen (run scenarioConfig scenarioEvents).pe.positions ≤ 1 ∧
     applyEntry scenarioConfig oneOpenLeg .CE 95 = oneOpenLeg) :=
  ⟨by decide,
   single_open_position_invariant scenarioConfig scenarioEvents oneOpenLeg .CE 95
     (by decide)⟩

/-- C2: for every finite sequence of candles, running the Supertrend
calculator incrementally candle-by-candle (folding `update` over the
sequence) yields exactly the same direction and value sequence as running it
in one batch pass over the whole history. -/
theorem supertrend_replay_determinism (cs : List Candle) :
    incRun cs = batchRun SupertrendState.init cs := by
  simpa using foldl_incStep_eq cs SupertrendState.init []

/-- C3: for every leg and every reachable state within one trading day,
ReentryCounter.count never exceeds 3; the leg's `stopped` flag becomes true
exactly on the 4th would-be entry (counter already at 3, no position created),
after which no further entries occur for that leg that day; and no step sets
`stopped` before the counter has reached 3. -/
theorem reentry_counter_cap (cfg : RiskConfig) (evs : List (Leg × LegEvent))
    (s3 sStop sPre : LegState) (leg : Leg) (p : ℚ) (e : LegEvent)
    (h3c : s3.counter.count = 3) (h3s : s3.counter.stopped = false)
    (h3o : countOpen s3.positions = 0)
    (hstop : sStop.counter.stopped = true)
    (hps : sPre.counter.stopped = false) (hpc : sPre.counter.count < 3) :
    ((run cfg evs).ce.counter.count ≤ 3 ∧ (run cfg evs).pe.counter.count ≤ 3) ∧
    (applyEntry cfg s3 leg p).counter.stopped = true ∧
    (applyEntry cfg s3 leg p).positions = s3.positions ∧
    applyEntry cfg sStop leg p = sStop ∧
    (legStep cfg leg sPre e).counter.stopped = false := by
  refine ⟨run_count_le_three cfg evs, ?_, ?_, ?_, ?_⟩
  · simp [applyEntry, h3s, h3o, h3c]
  · simp [applyEntry, h3s, h3o, h3c]
  · simp [applyEntry, hstop]
  · cases e with
    | entry price =>
      by_cases ho : countOpen sPre.positions ≠ 0
      · simp [legStep, applyEntry, hps, ho]
      · simp [legStep, applyEntry, hps, ho, Nat.not_le.mpr hpc]
    | exitFill r pr => simp [legStep, applyExit, hps]

/-- Witness for C3: the cap state, the stopped state and the fresh state at
concrete inputs. -/
theorem reentry_counter_cap_witness :
    (capLeg.counter.count = 3 ∧ capLeg.counter.stopped = false ∧
     countOpen capLeg.positions = 0 ∧ stoppedLeg.counter.stopped = true ∧
     LegState.init.counter.stopped = false ∧ LegState.init.counter.count < 3) ∧
    (((run scenarioConfig scenarioEvents).ce.counter.count ≤ 3 ∧
      (run scenarioConfig scenarioEvents).pe.counter.count ≤ 3) ∧
     (applyEntry scenarioConfig capLeg .CE 90).counter.stopped = true ∧
     (applyEntry scenarioConfig capLeg .CE 90).positions = capLeg.positions ∧
     applyEntry scenarioConfig stoppedLeg .CE 90 = stoppedLeg ∧
     (legStep scenarioConfig .CE LegState.init (.entry 90)).counter.stopped = false) :=
  ⟨by decide,
   reentry_counter_cap scenarioConfig scenarioEvents capLeg stoppedLeg
     LegState.init .CE 90 (.entry 90) (by decide) (by decide) (by decide)
     (by decide) (by decide) (by decide)⟩

/-- C4: RiskGate rejects an ENTRY intent if and only if the daily trade budget
is exhausted, the daily loss limit is breached, the time is past the entry
cutoff, or the leg's re-entry counter is stopped; a rejected intent is dropped
(`none`, not queued or retried) and an admitted intent passes through
unchanged; RiskGate never rejects an EXIT intent. -/
theorem riskGate_reject_iff (cfg : RiskConfig) (st : RiskState) (i : Intent) :
    (riskGate cfg st i = none ↔
      (i.kind = .ENTRY ∧
        (cfg.max_trades_per_day ≤ st.total_trades_today ∨
         st.running_daily_pnl ≤ -cfg.max_daily_loss ∨
         st.past_cutoff = true ∨
         (st.counterFor i.leg).stopped = true))) ∧
    (riskGate cfg st i = none ∨ riskGate cfg st i = some i) ∧
    riskGate cfg st { kind := .EXIT, leg := i.leg } =
      some { kind := .EXIT, leg := i.leg } := by
  obtain ⟨k, l⟩ := i
  cases k
  · refine ⟨?_, ?_, by simp [riskGate]⟩
    · simp only [riskGate]
      split_ifs with h1 h2 h3 h4 <;> simp_all
    · simp only [riskGate]
      split_ifs <;> simp
  · simp [riskGate]

/-- Witness for C4: the gate evaluated on a fresh state and an ENTRY intent. -/
theorem riskGate_reject_iff_witness :
    (riskGate scenarioConfig freshRiskState { kind := .ENTRY, leg := .CE } = none ↔
      ((Intent.mk .ENTRY .CE).kind = .ENTRY ∧
        (scenarioConfig.max_trades_per_day ≤ freshRiskState.total_trades_today ∨
         freshRiskState.running_daily_pnl ≤ -scenarioConfig.max_daily_loss ∨
         freshRiskState.past_cutoff = true ∨
         (freshRiskState.counterFor (Intent.mk .ENTRY .CE).leg).stopped = true))) ∧
    (riskGate scenarioConfig freshRiskState { kind := .ENTRY, leg := .CE } = none ∨
     riskGate scenarioConfig freshRiskState { kind := .ENTRY, leg := .CE } =
       some { kind := .ENTRY, leg := .CE }) ∧
    riskGate scenarioConfig freshRiskState { kind := .EXIT, leg := .CE } =
      some { kind := .EXIT, leg := .CE } :=
  riskGate_reject_iff scenarioConfig freshRiskState { kind := .ENTRY, leg := .CE }

/-- C5: for every execution trace, including traces with retries and replays
after process restart (the dedup store is persisted, so such traces are folds
from a recovered state whose broker orders are all recorded in the store),
the executor never places two broker orders with the same
(leg, day, reentry_index, direction) key, and every placed order is recorded
in the dedup store. -/
theorem orderExecutor_dedup (st0 : ExecState) (intents : List OrderKey)
    (hnd : st0.broker_orders.Nodup)
    (hsub : ∀ k ∈ st0.broker_orders, k ∈ st0.placed) :
    (runExec st0 intents).broker_orders.Nodup ∧
    ∀ k ∈ (runExec st0 intents).broker_orders, k ∈ (runExec st0 intents).placed := by
  refine foldl_preserves execute
    (fun st => st.broker_orders.Nodup ∧ ∀ k ∈ st.broker_orders, k ∈ st.placed)
    ?_ intents st0 ⟨hnd, hsub⟩
  rintro st k ⟨hn, hs⟩
  by_cases hk : k ∈ st.placed
  · simpa [execute, hk] using ⟨hn, hs⟩
  · constructor
    · simp only [execute, if_neg hk]
      refine List.Nodup.append hn (List.nodup_singleton k) ?_
      intro a ha hb
      rw [List.mem_singleton] at hb
      subst hb
      exact hk (hs a ha)
    · intro k' hk'
      simp only [execute, if_neg hk] at hk' ⊢
      rcases List.mem_append.mp hk' with h | h
      · exact List.mem_append.mpr (Or.inl (hs k' h))
      · exact List.mem_append.mpr (Or.inr h)

/-- Witness for C5: a forced-retry trace (the first key submitted three times)
from an empty store places each key at most once. -/
theorem orderExecutor_dedup_witness :
    ((ExecState.mk [] []).broker_orders.Nodup ∧
      ∀ k ∈ (ExecState.mk [] []).broker_orders, k ∈ (ExecState.mk [] []).placed) ∧
    ((runExec (ExecState.mk [] [])
        [{ leg := .CE, day := 0, reentry_index := 0, direction := .SELL },
         { leg := .CE, day := 0, reentry_index := 0, direction := .SELL },
         { leg := .CE, day := 0, reentry_index := 1, direction := .SELL },
         { leg := .CE, day := 0, reentry_index := 0, direction := .SELL }]).broker_orders.Nodup ∧
      ∀ k ∈ (runExec (ExecState.mk [] [])
        [{ leg := .CE, day := 0, reentry_index := 0, direction := .SELL },
         { leg := .CE, day := 0, reentry_index := 0, direction := .SELL },
         { leg := .CE, day := 0, reentry_index := 1, direction := .SELL },
         { leg := .CE, day := 0, reentry_index := 0, direction := .SELL }]).broker_orders,
        k ∈ (runExec (ExecState.mk [] [])
        [{ leg := .CE, day := 0, reentry_index := 0, direction := .SELL },
         { leg := .CE, day := 0, reentry_index := 0, direction := .SELL },
         { leg := .CE, day := 0, reentry_index := 1, direction := .SELL },
         { leg := .CE, day := 0, reentry_index := 0, direction := .SELL }]).placed) :=
  ⟨⟨by decide, by decide⟩,
   orderExecutor_dedup (ExecState.mk [] [])
     [{ leg := .CE, day := 0, reentry_index := 0, direction := .SELL },
      { leg := .CE, day := 0, reentry_index := 0, direction := .SELL },
      { leg := .CE, day := 0, reentry_index := 1, direction := .SELL },
      { leg := .CE, day := 0, reentry_index := 0, direction := .SELL }]
     (by decide) (by decide)⟩

/-- C6: on every confirmed ENTRY fill, the created Position's qty equals
lot_size × (reentry_index + 1) when scaling is enabled and lot_size otherwise
(an invariant of every position ever created in a run); in particular, with
lot_size = 50 and scaling enabled, three consecutive ENTRY-then-SL rounds on
the CE leg yield the qty sequence 50, 100, 150, after which the leg is marked
stopped on the 4th signal. -/
theorem entry_qty_scaling (cfg : RiskConfig) (evs : List (Leg × LegEvent)) :
    (∀ pos ∈ (run cfg evs).ce.positions,
        pos.qty = if cfg.scaling_enabled then cfg.lot_size * (pos.reentry_index + 1)
                  else cfg.lot_size) ∧
    (∀ pos ∈ (run cfg evs).pe.positions,
        pos.qty = if cfg.scaling_enabled then cfg.lot_size * (pos.reentry_index + 1)
                  else cfg.lot_size) ∧
    (run scenarioConfig scenarioEvents).ce.positions.map Position.qty =
      [50, 100, 150] ∧
    (run scenarioConfig scenarioEvents).ce.counter.stopped = true := by
  obtain ⟨hce, hpe⟩ := run_qty_formula cfg evs
  exact ⟨hce, hpe, by decide, by decide⟩

/-- Witness for C6: the qty invariant instantiated on the scenario run. -/
theorem entry_qty_scaling_witness :
    (∀ pos ∈ (run scenarioConfig scenarioEvents).ce.positions,
        pos.qty = if scenarioConfig.scaling_enabled then
            scenarioConfig.lot_size * (pos.reentry_index + 1)
          else scenarioConfig.lot_size) ∧
    (∀ pos ∈ (run scenarioConfig scenarioEvents).pe.positions,
        pos.qty = if scenarioConfig.scaling_enabled then
            scenarioConfig.lot_size * (pos.reentry_index + 1)
          else scenarioConfig.lot_size) ∧
    (run scenarioConfig scenarioEvents).ce.positions.map Position.qty =
      [50, 100, 150] ∧
    (run scenarioConfig scenarioEvents).ce.counter.stopped = true :=
  entry_qty_scaling scenarioConfig scenarioEvents

/-- C7: the forced square-off trigger is idempotent: firing it again (at any
later price, e.g. after a restart) changes neither the positions nor the
realized P&L; concretely, with one OPEN CE position (qty 50 sold at 100) a
square-off at 90 closes it with exit_reason FORCE and books P&L 500 exactly
once, and a second firing changes nothing. -/
theorem force_squareOff_idempotent :
    (∀ (s : LegState) (p q : ℚ), squareOff (squareOff s p) q = squareOff s p) ∧
    (squareOff oneOpenLeg 90).positions =
      [{ id := 0, leg := .CE, qty := 50, avg_price := 100, status := .CLOSED,
         exit_price := some 90, exit_reason := some .FORCE, reentry_index := 0 }] ∧
    (squareOff oneOpenLeg 90).realized_pnl = 500 ∧
    squareOff (squareOff oneOpenLeg 90) 90 = squareOff oneOpenLeg 90 := by
  have hgen : ∀ (s : LegState) (p q : ℚ), squareOff (squareOff s p) q = squareOff s p := by
    intro s p q
    have hmap : (s.positions.map (closePos .FORCE p)).map (closePos .FORCE q)
        = s.positions.map (closePos .FORCE p) := by
      rw [List.map_map]
      apply List.map_congr_left
      intro a _
      exact closePos_of_not_open _ _ _ (closePos_not_open _ _ a)
    have hfil : (s.positions.map (closePos .FORCE p)).filter
        (fun r => r.status = .OPEN) = [] := by
      rw [List.filter_eq_nil_iff]
      intro a ha
      obtain ⟨b, _, rfl⟩ := List.mem_map.mp ha
      simpa using closePos_not_open _ _ b
    simp [squareOff, applyExit, hmap, hfil]
  refine ⟨hgen, by decide, ?_, hgen oneOpenLeg 90 90⟩
  simp [squareOff, applyExit, oneOpenLeg, closePos]
  norm_num

/-- C8: a start request with missing credentials is rejected before any
trading state is created: in the Dashboard start handler, if `client_id` or
`access_token` is empty, no start request is issued to the backend and only a
local error message is set. -/
theorem missing_credentials_rejected (creds : Credentials)
    (h : creds.client_id = "" ∨ creds.access_token = "") :
    handleStart creds = .localError "Client ID and Access Token are required" ∧
    ∀ p : StartPayload, handleStart creds ≠ .request p := by
  constructor
  · simp [handleStart, h]
  · intro p hp
    simp [handleStart, h] at hp

/-- Witness for C8: empty client id with a non-empty token yields only the
local error. -/
theorem missing_credentials_rejected_witness :
    handleStart { client_id := "", access_token := "sometoken" } =
      .localError "Client ID and Access Token are required" ∧
    ∀ p : StartPayload,
      handleStart { client_id := "", access_token := "sometoken" } ≠ .request p :=
  missing_credentials_rejected
    { client_id := "", access_token := "sometoken" } (Or.inl rfl)

/-- C9: every start request issued from the Dashboard carries the constant
lot_size 50, regardless of the credential inputs and of whatever risk settings
were saved on the Profile page — the handler hardcodes `lot_size: 50` and
never reads the saved risk settings. -/
theorem start_payload_lot_size_fifty (creds : Credentials)
    (savedRisk : RiskConfig) (p : StartPayload)
    (h : handleStart creds = .request p) :
    p.lot_size = 50 := by
  unfold handleStart at h
  split at h
  · cases h
  · cases h
    rfl

/-- Witness for C9: concrete credentials, saved risk settings with lot size 75,
and the payload the handler actually issues. -/
theorem start_payload_lot_size_fifty_witness :
    ({ client_id := "XC001", access_token := "tok", lot_size := 50 } :
      StartPayload).lot_size = 50 :=
  start_payload_lot_size_fifty { client_id := "XC001", access_token := "tok" }
    { max_daily_loss := 5000, max_trades_per_day := 10, lot_size := 75,
      scaling_enabled := false }
    { client_id := "XC001", access_token := "tok", lot_size := 50 }
    (by decide)

theorem foldl_add_total_pnl (l : List DailyRow) (c : ℚ) :
    l.foldl (fun s x => s + x.total_pnl) c = c + (l.map DailyRow.total_pnl).sum := by
  induction l generalizing c with
  | nil => simp
  | cons d l ih => simp [ih, add_assoc]

/-- C10: for every fetched daily P&L history list, the cumulative equity
series is a correct running sum of the date-reversed list: entry i's
cumulative value equals the sum of total_pnl over reversed entries 0..i, and
the final cumulative value equals the displayed Total P&L (the sum of
total_pnl over all days). -/
theorem chartData_cumulative_correct (history : List DailyRow)
    (hne : history ≠ []) :
    (∀ (i : Nat) (h : i < (chartData history).length),
        ((chartData history).get ⟨i, h⟩).cumulative
          = ((history.reverse.take (i + 1)).map DailyRow.total_pnl).sum) ∧
    (chartData history).getLast?.map ChartPoint.cumulative =
      some (totalPnl history) := by
  have hlen : (chartData history).length = history.length := by
    simp [chartData]
  have hpoint : ∀ (i : Nat) (h : i < (chartData history).length),
      ((chartData history).get ⟨i, h⟩).cumulative
        = ((history.reverse.take (i + 1)).map DailyRow.total_pnl).sum := by
    intro i h
    have hi : i < history.reverse.length := by
      simpa using hlen ▸ h
    simp only [chartData]
    rw [List.get_mapIdx _ _ i hi]
    simp only
    rw [foldl_add_total_pnl, zero_add]
  refine ⟨hpoint, ?_⟩
  have hpos : 0 < (chartData history).length := by
    rw [hlen]
    exact List.length_pos.mpr hne
  have hlt : (chartData history).length - 1 < (chartData history).length := by
    omega
  rw [List.getLast?_eq_getElem? (chartData history),
    List.getElem?_eq_getElem hlt]
  simp only [Option.map_some']
  have hval := hpoint ((chartData history).length - 1) hlt
  have hidx : (chartData history).length - 1 + 1 = history.reverse.length := by
    simp only [List.length_reverse]
    omega
  rw [List.get_eq_getElem] at hval
  rw [hval, hidx, List.take_length, List.map_reverse, List.sum_reverse,
    totalPnl, foldl_add_total_pnl, zero_add]

/-- Witness for C10: a two-day history evaluated concretely. -/
theorem chartData_cumulative_correct_witness :
    (∀ (i : Nat)
        (h : i < (chartData
          [{ date := "2025-01-02", total_pnl := -3, total_trades := 2,
             winning_trades := 0, losing_trades := 2 },
           { date := "2025-01-01", total_pnl := 10, total_trades := 4,
             winning_trades := 3, losing_trades := 1 }]).length),
        ((chartData
          [{ date := "2025-01-02", total_pnl := -3, total_trades := 2,
             winning_trades := 0, losing_trades := 2 },
           { date := "2025-01-01", total_pnl := 10, total_trades := 4,
             winning_trades := 3, losing_trades := 1 }]).get ⟨i, h⟩).cumulative
          = ((([{ date := "2025-01-02", total_pnl := -3, total_trades := 2,
                  winning_trades := 0, losing_trades := 2 },
                { date := "2025-01-01", total_pnl := 10, total_trades := 4,
                  winning_trades := 3, losing_trades := 1 }] :
                List DailyRow).reverse.take (i + 1)).map DailyRow.total_pnl).sum) ∧
    (chartData
      [{ date := "2025-01-02", total_pnl := -3, total_trades := 2,
         winning_trades := 0, losing_trades := 2 },
       { date := "2025-01-01", total_pnl := 10, total_trades := 4,
         winning_trades := 3, losing_trades := 1 }]).getLast?.map
        ChartPoint.cumulative =
      some (totalPnl
        [{ date := "2025-01-02", total_pnl := -3, total_trades := 2,
           winning_trades := 0, losing_trades := 2 },
         { date := "2025-01-01", total_pnl := 10, total_trades := 4,
           winning_trades := 3, losing_trades := 1 }]) :=
  chartData_cumulative_correct
    [{ date := "2025-01-02", total_pnl := -3, total_trades := 2,
       winning_trades := 0, losing_trades := 2 },
     { date := "2025-01-01", total_pnl := 10, total_trades := 4,
       winning_trades := 3, losing_trades := 1 }]
    (by simp)

end Supertrend
